import Mathlib

/-!
Shallow embedding of the SSSVentures product-catalog server
(`src/server.js`, primary revision), plus the older revision kept in the
repository (`src/unnamed/part_000`, namespace `V0`).

Modelling conventions:
* Request-body fields arrive from the multipart/JSON body as optional
  strings (`Option String`); JavaScript truthiness of such a field is
  `false` exactly for a missing field (`none`) and the empty string.
* `tags` may arrive as a string or an already-split sequence, so it gets
  its own input type `TagsInput`.
* Timestamps (`Date.now()`, `new Date().toISOString()`) are modelled as
  natural-number milliseconds; `toISOString` is order-preserving on them,
  so `updatedAt`/`createdAt` comparisons are comparisons of these numbers.
* JavaScript numbers are modelled as `JsNumber`: a rational, or `nan`
  (the claims only exercise exact decimal values, where binary floating
  point agrees with rational arithmetic).
* The JS string builtins `split`, `trim` and `startsWith` are modelled by
  structural recursion over the character list of the string.
* File-system side effects (saving/unlinking image files) are outside the
  store state; an uploaded file is modelled by its generated filename
  (`Option String`), which the handlers turn into `/uploads/<filename>`.
-/

/-- A JavaScript number: either an actual (rational) value or NaN. -/
inductive JsNumber where
  | nan : JsNumber
  | num (q : ℚ) : JsNumber
deriving DecidableEq, Repr

/-- JS truthiness of an optional string field: `undefined` and `""` are
falsy, every other string is truthy. -/
def jsTruthy : Option String → Bool
  | none => false
  | some s => !(s == "")

/-- JS `a || b` for an optional string `a` against a string default `b`. -/
def jsOr (a : Option String) (b : String) : String :=
  match a with
  | none => b
  | some s => if s == "" then b else s

/-- JS `s.startsWith(pre)`. -/
def jsStartsWith (s pre : String) : Bool :=
  pre.data.isPrefixOf s.data

/-- ASCII whitespace removed by JS `trim` (the inputs in this development
contain no exotic Unicode whitespace). -/
def isJsSpace (c : Char) : Bool :=
  c == ' ' || c == '\t' || c == '\n' || c == '\r'

/-- JS `s.trim()`: strip leading and trailing whitespace. -/
def jsTrim (s : String) : String :=
  String.mk (((s.data.dropWhile isJsSpace).reverse.dropWhile isJsSpace).reverse)

/-- Split a character list at every occurrence of `sep`; the separator is
dropped and empty segments are kept, as JS `split` does. -/
def splitChars (sep : Char) : List Char → List (List Char)
  | [] => [[]]
  | c :: rest =>
    let r := splitChars sep rest
    if c == sep then [] :: r
    else
      match r with
      | [] => [[c]]
      | g :: gs => (c :: g) :: gs

/-- JS `s.split(sep)` for a one-character separator. -/
def jsSplit (s : String) (sep : Char) : List String :=
  (splitChars sep s.data).map String.mk

/-- Digit list to natural number, most significant first. -/
def digitsToNat (ds : List Char) : ℕ :=
  ds.foldl (fun n c => 10 * n + (c.toNat - 48)) 0

/-- Outcome of scanning a decimal literal: no digit found, or a sign with
the integer-part and fraction-part digit lists. -/
inductive ParsedDec where
  | nan : ParsedDec
  | dec (neg : Bool) (intPart fracPart : List Char) : ParsedDec
deriving DecidableEq, Repr

/-- Scanning stage of JS `parseFloat` on plain decimal literals: skip
leading whitespace, read an optional sign, then the longest prefix made of
digits with at most one decimal point; `nan` when no digit is read. -/
def parseDec (s : String) : ParsedDec :=
  let cs := s.data.dropWhile isJsSpace
  let signAndRest : Bool × List Char :=
    match cs with
    | '-' :: rest => (true, rest)
    | '+' :: rest => (false, rest)
    | _ => (false, cs)
  let neg := signAndRest.1
  let body := signAndRest.2
  let intPart := body.takeWhile Char.isDigit
  let afterInt := body.dropWhile Char.isDigit
  let fracPart : List Char :=
    match afterInt with
    | '.' :: r => r.takeWhile Char.isDigit
    | _ => []
  if intPart.isEmpty && fracPart.isEmpty then ParsedDec.nan
  else ParsedDec.dec neg intPart fracPart

/-- Numeric value of a scanned decimal literal. -/
def decValue : ParsedDec → JsNumber
  | ParsedDec.nan => JsNumber.nan
  | ParsedDec.dec neg intPart fracPart =>
    let mag : ℚ :=
      (digitsToNat intPart : ℚ) + (digitsToNat fracPart : ℚ) / ((10 : ℚ) ^ fracPart.length)
    JsNumber.num (if neg then -mag else mag)

/-- Model of JS `parseFloat` restricted to plain decimal literals. -/
def parseFloat (s : String) : JsNumber :=
  decValue (parseDec s)

/-- The `specifications` object built by the primary revision's create and
update handlers (`src/server.js`). -/
structure Specifications where
  category : String
  subCategory : String
  composition : String
  gsm : String
  width : String
  count : String
  construction : String
  weave : String
  finish : String
deriving DecidableEq, Repr

/-- A stored product record of the primary revision (`src/server.js`). -/
structure Product where
  id : String
  name : String
  price : JsNumber
  category : String
  mainCategory : String
  subCategory : String
  image : String
  specifications : Specifications
  tags : List String
  createdAt : ℕ
  updatedAt : ℕ
  inStock : Bool
deriving DecidableEq, Repr

/-- The `tags` field of a request body: absent, a raw string, or an
already-split sequence. -/
inductive TagsInput where
  | undef : TagsInput
  | str (s : String) : TagsInput
  | arr (l : List String) : TagsInput
deriving DecidableEq, Repr

/-- The request body accepted by the create and update handlers: each text
field is an optional string; `tags` may also be a sequence. -/
structure Body where
  name : Option String
  price : Option String
  category : Option String
  mainCategory : Option String
  subCategory : Option String
  composition : Option String
  gsm : Option String
  width : Option String
  count : Option String
  construction : Option String
  weave : Option String
  finish : Option String
  tags : TagsInput
deriving DecidableEq, Repr

/-- The body with every field absent. -/
def Body.empty : Body :=
  ⟨none, none, none, none, none, none, none, none, none, none, none, none, TagsInput.undef⟩

/-- `req.body.tags ? (typeof tags === "string" ? tags.split(",").map(trim) : tags) : dflt`:
an absent or empty-string field yields the default (`[]` on create, the
existing tags on update); a non-empty string is split on commas with each
element trimmed; a sequence (even an empty one, which is truthy in JS) is
taken as-is. -/
def normalizeTags (t : TagsInput) (dflt : List String) : List String :=
  match t with
  | TagsInput.undef => dflt
  | TagsInput.str s => if s == "" then dflt else (jsSplit s ',').map jsTrim
  | TagsInput.arr l => l

/-- `generateId` of `src/server.js`: `"prod-" + Date.now().toString() +
Math.round(Math.random() * 1000)`, with the clock reading and the rounded
random draw as explicit inputs. -/
def generateId (now rand : ℕ) : String :=
  "prod-" ++ toString now ++ toString rand

/-- `getFullImageUrl` of `src/server.js`: empty reference to placeholder,
`http…` reference unchanged, `/uploads/…` reference prefixed by
`process.env.BACKEND_URL || http://localhost:<PORT>`, anything else
unchanged. -/
def getFullImageUrl (backendUrl : Option String) (port : ℕ) (imagePath : String) : String :=
  if imagePath == "" then
    "https://via.placeholder.com/300x300/4A5568/FFFFFF?text=No+Image"
  else if jsStartsWith imagePath "http" then
    imagePath
  else if jsStartsWith imagePath "/uploads/" then
    jsOr backendUrl ("http://localhost:" ++ toString port) ++ imagePath
  else
    imagePath

/-- Result of the POST `/api/products` handler: HTTP status, the product
collection afterwards, and the stored record on success. -/
structure CreateOutcome where
  status : ℕ
  store : List Product
  product : Option Product
deriving DecidableEq, Repr

/-- The POST `/api/products` handler of `src/server.js` (lines 97-150):
rejects a falsy `name` with 400; otherwise builds the record (trimmed name,
`price ? parseFloat(price) : 0`, `||`-defaulted text fields, normalized
tags, `inStock: true`, both timestamps `now`) and appends it. `file` is the
multer-generated filename of the uploaded image, if any. -/
def createProduct (store : List Product) (body : Body) (file : Option String)
    (now rand : ℕ) : CreateOutcome :=
  if !(jsTruthy body.name) then
    ⟨400, store, none⟩
  else
    let imageUrl := match file with
      | some f => "/uploads/" ++ f
      | none => ""
    let newProduct : Product :=
      { id := generateId now rand
        name := jsTrim (jsOr body.name "")
        price := if jsTruthy body.price then parseFloat (jsOr body.price "") else JsNumber.num 0
        category := jsOr body.category ""
        mainCategory := jsOr body.mainCategory ""
        subCategory := jsOr body.subCategory ""
        image := imageUrl
        specifications :=
          { category := jsOr body.category ""
            subCategory := jsOr body.subCategory ""
            composition := jsOr body.composition ""
            gsm := jsOr body.gsm ""
            width := jsOr body.width ""
            count := jsOr body.count ""
            construction := jsOr body.construction ""
            weave := jsOr body.weave ""
            finish := jsOr body.finish ""
          }
        tags := normalizeTags body.tags []
        createdAt := now
        updatedAt := now
        inStock := true
      }
    ⟨201, store ++ [newProduct], some newProduct⟩

/-- The record built by the PUT `/api/products/:id` handler (lines 172-197)
from the existing record and the request: spread of the existing record,
each text field `req.body.x || existing.x`, price
`req.body.price ? parseFloat(req.body.price) : existing.price`, the image
replaced only when a file was uploaded, specifications rebuilt field by
field with the same `||` rule, tags re-normalized with the existing tags as
default, and `updatedAt` set to now. -/
def applyUpdate (existing : Product) (body : Body) (file : Option String)
    (now : ℕ) : Product :=
  { existing with
    name := jsOr body.name existing.name
    price := if jsTruthy body.price then parseFloat (jsOr body.price "") else existing.price
    category := jsOr body.category existing.category
    mainCategory := jsOr body.mainCategory existing.mainCategory
    subCategory := jsOr body.subCategory existing.subCategory
    image := match file with
      | some f => "/uploads/" ++ f
      | none => existing.image
    specifications :=
      { category := jsOr body.category existing.specifications.category
        subCategory := jsOr body.subCategory existing.specifications.subCategory
        composition := jsOr body.composition existing.specifications.composition
        gsm := jsOr body.gsm existing.specifications.gsm
        width := jsOr body.width existing.specifications.width
        count := jsOr body.count existing.specifications.count
        construction := jsOr body.construction existing.specifications.construction
        weave := jsOr body.weave existing.specifications.weave
        finish := jsOr body.finish existing.specifications.finish
      }
    tags := normalizeTags body.tags existing.tags
    updatedAt := now
  }

/-- `products.findIndex(p => p.id === id)` followed by
`products[index] = f(products[index])`: replaces the first record whose id
matches, returning the new list and the replaced record (`none` when no
record matched). -/
def updateFirst (l : List Product) (id : String) (f : Product → Product) :
    List Product × Option Product :=
  match l with
  | [] => ([], none)
  | p :: rest =>
    if p.id == id then (f p :: rest, some (f p))
    else
      let r := updateFirst rest id f
      (p :: r.1, r.2)

/-- `products.findIndex(p => p.id === id)` followed by
`products.splice(index, 1)`: removes the first record whose id matches,
returning the new list and the removed record (`none` when no record
matched). -/
def removeFirst (l : List Product) (id : String) : List Product × Option Product :=
  match l with
  | [] => ([], none)
  | p :: rest =>
    if p.id == id then (rest, some p)
    else
      let r := removeFirst rest id
      (p :: r.1, r.2)

/-- Result of the PUT `/api/products/:id` handler. -/
structure UpdateOutcome where
  status : ℕ
  store : List Product
  product : Option Product
deriving DecidableEq, Repr

/-- The PUT `/api/products/:id` handler of `src/server.js` (lines 152-205):
404 when no record has the requested id, otherwise replaces the first match
by `applyUpdate` of it. -/
def updateProduct (store : List Product) (id : String) (body : Body)
    (file : Option String) (now : ℕ) : UpdateOutcome :=
  let r := updateFirst store id (fun p => applyUpdate p body file now)
  match r.2 with
  | none => ⟨404, store, none⟩
  | some q => ⟨200, r.1, some q⟩

/-- Result of the DELETE `/api/products/:id` handler. -/
structure DeleteOutcome where
  status : ℕ
  store : List Product
  deletedId : Option String
deriving DecidableEq, Repr

/-- The DELETE `/api/products/:id` handler of `src/server.js`
(lines 207-229): 404 when no record has the requested id, otherwise removes
the first match and reports the requested id as `deletedId`. -/
def deleteProduct (store : List Product) (id : String) : DeleteOutcome :=
  let r := removeFirst store id
  match r.2 with
  | none => ⟨404, store, none⟩
  | some _ => ⟨200, r.1, some id⟩

namespace V0

/-- The `specifications` object of the older revision
(`src/unnamed/part_000`), which also carries `usage`. -/
structure Specifications where
  category : String
  subCategory : String
  composition : String
  gsm : String
  width : String
  count : String
  construction : String
  weave : String
  finish : String
  usage : String
deriving DecidableEq, Repr

/-- A stored product record of the older revision
(`src/unnamed/part_000`), which also carries `description` and
`nestedCategory`. -/
structure Product where
  id : String
  name : String
  price : JsNumber
  description : String
  category : String
  mainCategory : String
  subCategory : String
  nestedCategory : String
  image : String
  specifications : Specifications
  tags : List String
  createdAt : ℕ
  updatedAt : ℕ
  inStock : Bool
deriving DecidableEq, Repr

/-- The request body destructured by the older revision's create handler.
Fields destructured with a `= ''` default are still optional strings here:
the default fires exactly when the field is absent. `tags` is destructured
with default `''`, so it is a string in this revision. -/
structure Body where
  name : Option String
  price : Option String
  description : Option String
  mainCategory : Option String
  subCategory : Option String
  nestedCategory : Option String
  composition : Option String
  gsm : Option String
  width : Option String
  count : Option String
  construction : Option String
  weave : Option String
  finish : Option String
  usage : Option String
  tags : Option String
deriving DecidableEq, Repr

/-- The body with every field absent. -/
def Body.empty : Body :=
  ⟨none, none, none, none, none, none, none, none, none, none, none, none, none, none, none⟩

/-- `generateId` of `src/unnamed/part_000`: `"prod-" + Date.now() +
Math.random().toString(36).substr(2, 9)`, with the clock reading and the
random base-36 suffix as explicit inputs. -/
def generateId (now : ℕ) (rand : String) : String :=
  "prod-" ++ toString now ++ rand

/-- `subCategory ? subCategory.trim() : ''` and friends: trim a truthy
field, else empty string. -/
def trimOrEmpty (a : Option String) : String :=
  if jsTruthy a then jsTrim (jsOr a "") else ""

/-- Result of the older revision's POST `/api/products` handler. -/
structure CreateOutcome where
  status : ℕ
  store : List Product
  product : Option Product
deriving DecidableEq, Repr

/-- The POST `/api/products` handler of `src/unnamed/part_000`
(lines 82-168): rejects the request with 400 unless `name`, `price` and
`mainCategory` are all truthy; otherwise builds the record (placeholder
image when no file was uploaded, `parseFloat(price)`, trimmed text fields,
split-and-trimmed tags, `inStock: true`) and appends it. -/
def createProduct (store : List Product) (body : Body) (file : Option String)
    (now : ℕ) (rand : String) : CreateOutcome :=
  if !(jsTruthy body.name) || !(jsTruthy body.price) || !(jsTruthy body.mainCategory) then
    ⟨400, store, none⟩
  else
    let imageUrl := match file with
      | some f => "/uploads/" ++ f
      | none => "https://via.placeholder.com/300x300/4A5568/FFFFFF?text=Product+Image"
    let tagsEff := jsOr body.tags ""
    let newProduct : Product :=
      { id := generateId now rand
        name := jsTrim (jsOr body.name "")
        price := parseFloat (jsOr body.price "")
        description := jsTrim (jsOr body.description "")
        category := jsOr body.mainCategory ""
        mainCategory := jsTrim (jsOr body.mainCategory "")
        subCategory := trimOrEmpty body.subCategory
        nestedCategory := trimOrEmpty body.nestedCategory
        image := imageUrl
        specifications :=
          { category := jsTrim (jsOr body.mainCategory "")
            subCategory := trimOrEmpty body.subCategory
            composition := jsTrim (jsOr body.composition "")
            gsm := jsTrim (jsOr body.gsm "")
            width := jsTrim (jsOr body.width "")
            count := jsTrim (jsOr body.count "")
            construction := jsTrim (jsOr body.construction "")
            weave := jsTrim (jsOr body.weave "")
            finish := jsTrim (jsOr body.finish "")
            usage := jsTrim (jsOr body.usage "")
          }
        tags := if tagsEff == "" then [] else (jsSplit tagsEff ',').map jsTrim
        createdAt := now
        updatedAt := now
        inStock := true
      }
    ⟨201, store ++ [newProduct], some newProduct⟩

end V0

example : parseDec "12.5" = ParsedDec.dec false ['1', '2'] ['5'] := by decide
example : parseDec "-5" = ParsedDec.dec true ['5'] [] := by decide
example : parseFloat "abc" = JsNumber.nan := by decide
example : parseFloat "12.5" = JsNumber.num (25 / 2) := by
  show decValue (parseDec "12.5") = _
  rw [show parseDec "12.5" = ParsedDec.dec false ['1', '2'] ['5'] from by decide]
  show JsNumber.num _ = _
  rw [show digitsToNat ['1', '2'] = 12 from by decide,
    show digitsToNat ['5'] = 5 from by decide]
  norm_num
example : parseFloat "-5" = JsNumber.num (-5) := by
  show decValue (parseDec "-5") = _
  rw [show parseDec "-5" = ParsedDec.dec true ['5'] [] from by decide]
  show JsNumber.num _ = _
  rw [show digitsToNat ['5'] = 5 from by decide, show digitsToNat [] = 0 from by decide]
  norm_num
example : normalizeTags (TagsInput.str "a, b ,c") [] = ["a", "b", "c"] := by decide
example : normalizeTags (TagsInput.str "eco, natural") [] = ["eco", "natural"] := by decide
example : jsTrim "  x y " = "x y" := by decide
example : jsStartsWith "/uploads/a.png" "/uploads/" = true := by decide
example : jsStartsWith "https://x" "http" = true := by decide

/-- A concrete stored record used to instantiate theorems with hypotheses. -/
def sampleProduct : Product :=
  { id := "prod-00"
    name := "Old"
    price := JsNumber.num 0
    category := "c"
    mainCategory := "mc"
    subCategory := "sc"
    image := "/uploads/a.png"
    specifications := ⟨"c", "sc", "co", "g", "w", "ct", "cn", "we", "fi"⟩
    tags := ["t1"]
    createdAt := 3
    updatedAt := 4
    inStock := true
  }

theorem updateFirst_snd_eq_some (l : List Product) (id : String) (f : Product → Product)
    (q : Product) (h : (updateFirst l id f).2 = some q) :
    ∃ l1 p l2, l = l1 ++ p :: l2 ∧ (p.id == id) = true ∧
      (∀ r ∈ l1, (r.id == id) = false) ∧ q = f p ∧
      (updateFirst l id f).1 = l1 ++ f p :: l2 := by
  induction l with
  | nil => simp [updateFirst] at h
  | cons p rest ih =>
    by_cases hp : (p.id == id) = true
    · have hq : q = f p := by
        have : (updateFirst (p :: rest) id f).2 = some (f p) := by
          simp [updateFirst, hp]
        rw [this] at h
        exact (Option.some_inj.mp h).symm
      exact ⟨[], p, rest, by simp, hp, by simp, hq, by simp [updateFirst, hp]⟩
    · have hp' : (p.id == id) = false := by
        simpa using hp
      have h2 : (updateFirst rest id f).2 = some q := by
        simpa [updateFirst, hp'] using h
      obtain ⟨l1, pm, l2, hl, hid, hl1, hq, h1⟩ := ih h2
      refine ⟨p :: l1, pm, l2, by simp [hl], hid, ?_, hq, by simp [updateFirst, hp', h1]⟩
      intro r hr
      rcases List.mem_cons.mp hr with hr | hr
      · rw [hr]; exact hp'
      · exact hl1 r hr

theorem updateFirst_eq_of_no_match (l : List Product) (id : String) (f : Product → Product)
    (h : ∀ p ∈ l, (p.id == id) = false) : updateFirst l id f = (l, none) := by
  induction l with
  | nil => rfl
  | cons p rest ih =>
    have hp := h p (List.mem_cons_self p rest)
    have hrest := ih fun q hq => h q (List.mem_cons_of_mem p hq)
    simp [updateFirst, hp, hrest]

theorem updateFirst_isSome_of_match (l : List Product) (id : String) (f : Product → Product)
    (h : ∃ p ∈ l, (p.id == id) = true) : ∃ q, (updateFirst l id f).2 = some q := by
  induction l with
  | nil => simp at h
  | cons p rest ih =>
    by_cases hp : (p.id == id) = true
    · exact ⟨f p, by simp [updateFirst, hp]⟩
    · have hp' : (p.id == id) = false := by simpa using hp
      obtain ⟨r, hr, hrid⟩ := h
      rcases List.mem_cons.mp hr with hr | hr
      · rw [hr] at hrid; rw [hrid] at hp'; cases hp'
      · obtain ⟨q, hq⟩ := ih ⟨r, hr, hrid⟩
        exact ⟨q, by simpa [updateFirst, hp'] using hq⟩

theorem removeFirst_snd_eq_some (l : List Product) (id : String)
    (q : Product) (h : (removeFirst l id).2 = some q) :
    ∃ l1 l2, l = l1 ++ q :: l2 ∧ (q.id == id) = true ∧
      (∀ r ∈ l1, (r.id == id) = false) ∧ (removeFirst l id).1 = l1 ++ l2 := by
  induction l with
  | nil => simp [removeFirst] at h
  | cons p rest ih =>
    by_cases hp : (p.id == id) = true
    · have hq : q = p := by
        have : (removeFirst (p :: rest) id).2 = some p := by simp [removeFirst, hp]
        rw [this] at h
        exact (Option.some_inj.mp h).symm
      subst hq
      exact ⟨[], rest, by simp, hp, by simp, by simp [removeFirst, hp]⟩
    · have hp' : (p.id == id) = false := by simpa using hp
      have h2 : (removeFirst rest id).2 = some q := by
        simpa [removeFirst, hp'] using h
      obtain ⟨l1, l2, hl, hid, hl1, h1⟩ := ih h2
      refine ⟨p :: l1, l2, by simp [hl], hid, ?_, by simp [removeFirst, hp', h1]⟩
      intro r hr
      rcases List.mem_cons.mp hr with hr | hr
      · rw [hr]; exact hp'
      · exact hl1 r hr

theorem removeFirst_eq_of_no_match (l : List Product) (id : String)
    (h : ∀ p ∈ l, (p.id == id) = false) : removeFirst l id = (l, none) := by
  induction l with
  | nil => rfl
  | cons p rest ih =>
    have hp := h p (List.mem_cons_self p rest)
    have hrest := ih fun q hq => h q (List.mem_cons_of_mem p hq)
    simp [removeFirst, hp, hrest]

theorem removeFirst_isSome_of_match (l : List Product) (id : String)
    (h : ∃ p ∈ l, (p.id == id) = true) : ∃ q, (removeFirst l id).2 = some q := by
  induction l with
  | nil => simp at h
  | cons p rest ih =>
    by_cases hp : (p.id == id) = true
    · exact ⟨p, by simp [removeFirst, hp]⟩
    · have hp' : (p.id == id) = false := by simpa using hp
      obtain ⟨r, hr, hrid⟩ := h
      rcases List.mem_cons.mp hr with hr | hr
      · rw [hr] at hrid; rw [hrid] at hp'; cases hp'
      · obtain ⟨q, hq⟩ := ih ⟨r, hr, hrid⟩
        exact ⟨q, by simpa [removeFirst, hp'] using hq⟩

theorem updateFirst_of_decomposition (l1 : List Product) (p : Product) (l2 : List Product)
    (id : String) (f : Product → Product)
    (h1 : ∀ r ∈ l1, (r.id == id) = false) (hp : (p.id == id) = true) :
    updateFirst (l1 ++ p :: l2) id f = (l1 ++ f p :: l2, some (f p)) := by
  induction l1 with
  | nil => simp [updateFirst, hp]
  | cons a rest ih =>
    have ha := h1 a (List.mem_cons_self a rest)
    have hrest := ih fun r hr => h1 r (List.mem_cons_of_mem a hr)
    simp [updateFirst, ha, hrest]

/-- A request body that supplies only the `price` field. -/
def priceOnlyBody (ps : Option String) : Body :=
  ⟨none, ps, none, none, none, none, none, none, none, none, none, none, TagsInput.undef⟩

/-- C1: a Create request whose `name` is missing or empty fails with the
validation envelope (status 400) and leaves the collection unchanged;
conversely the collection only ever changes — by appending exactly one
record — when the supplied `name` is present and non-empty. -/
theorem create_missing_name_fails (store : List Product) (body : Body)
    (file : Option String) (now rand : ℕ) :
    (jsTruthy body.name = false →
      (createProduct store body file now rand).status = 400 ∧
      (createProduct store body file now rand).store = store) ∧
    ((createProduct store body file now rand).store ≠ store →
      jsTruthy body.name = true ∧
      (createProduct store body file now rand).store.length = store.length + 1) := by
  cases h : jsTruthy body.name with
  | false =>
    constructor
    · intro _
      constructor
      · simp [createProduct, h]
      · simp [createProduct, h]
    · intro hne
      exact absurd (by simp [createProduct, h]) hne
  | true =>
    constructor
    · intro hf
      cases hf
    · intro _
      refine ⟨rfl, ?_⟩
      simp [createProduct, h]

/-- C1 witness: the nameless request on the singleton store is rejected
with 400 and the store is untouched. -/
theorem create_missing_name_fails_witness :
    (createProduct [sampleProduct] Body.empty none 7 7).status = 400 ∧
    (createProduct [sampleProduct] Body.empty none 7 7).store = [sampleProduct] :=
  (create_missing_name_fails [sampleProduct] Body.empty none 7 7).1 (by decide)

/-- C5: deleting an id that matches no stored product yields 404 and the
identical collection; deleting an existing id removes exactly the (first,
hence under unique ids: the) matching record, keeps every other record,
and reports the requested id as `deletedId`. -/
theorem delete_not_found_and_removes_exactly_one (store : List Product) (id : String) :
    ((∀ p ∈ store, (p.id == id) = false) →
      (deleteProduct store id).status = 404 ∧
      (deleteProduct store id).store = store) ∧
    ((∃ p ∈ store, (p.id == id) = true) →
      (deleteProduct store id).status = 200 ∧
      (deleteProduct store id).deletedId = some id ∧
      ∃ l1 p l2, store = l1 ++ p :: l2 ∧ (p.id == id) = true ∧
        (∀ r ∈ l1, (r.id == id) = false) ∧
        (deleteProduct store id).store = l1 ++ l2) := by
  constructor
  · intro h
    have hr := removeFirst_eq_of_no_match store id h
    constructor
    · simp [deleteProduct, hr]
    · simp [deleteProduct, hr]
  · intro h
    obtain ⟨q, hq⟩ := removeFirst_isSome_of_match store id h
    obtain ⟨l1, l2, hl, hid, hl1, h1⟩ := removeFirst_snd_eq_some store id q hq
    exact ⟨by simp [deleteProduct, hq], by simp [deleteProduct, hq], l1, q, l2, hl, hid, hl1,
      by simp [deleteProduct, hq, h1]⟩

/-- C5 witness: deleting the absent id "nope" from the singleton store
yields 404 with the store intact, and deleting the present id "prod-00"
yields 200, reports it, and removes that record. -/
theorem delete_not_found_witness :
    ((deleteProduct [sampleProduct] "nope").status = 404 ∧
      (deleteProduct [sampleProduct] "nope").store = [sampleProduct]) ∧
    ((deleteProduct [sampleProduct] "prod-00").status = 200 ∧
      (deleteProduct [sampleProduct] "prod-00").deletedId = some "prod-00") :=
  ⟨(delete_not_found_and_removes_exactly_one [sampleProduct] "nope").1 (by decide),
    ⟨((delete_not_found_and_removes_exactly_one [sampleProduct] "prod-00").2 (by decide)).1,
      ((delete_not_found_and_removes_exactly_one [sampleProduct] "prod-00").2 (by decide)).2.1⟩⟩

/-- C3: updating an existing product (the first record matching the id,
given by its decomposition of the store) with a body that supplies only
`price` leaves `name`, `specifications`, `tags`, `image`, `createdAt` and
`id` at their prior values and sets `updatedAt` to the current time (hence
to a value ≥ the prior one whenever the clock did not go backwards); more
generally every successful update sets `updatedAt` to the current time and
keeps `createdAt` and `id`, and every create sets both timestamps to the
current time. -/
theorem update_price_only_frame (store : List Product) (id : String) (now : ℕ) :
    (∀ ps q p l1 l2, store = l1 ++ p :: l2 → (∀ r ∈ l1, (r.id == id) = false) →
      (p.id == id) = true →
      (updateProduct store id (priceOnlyBody ps) none now).product = some q →
      q.name = p.name ∧ q.specifications = p.specifications ∧ q.tags = p.tags ∧
      q.image = p.image ∧ q.createdAt = p.createdAt ∧ q.id = p.id ∧
      q.updatedAt = now ∧ (p.updatedAt ≤ now → p.updatedAt ≤ q.updatedAt)) ∧
    (∀ body file q p l1 l2, store = l1 ++ p :: l2 → (∀ r ∈ l1, (r.id == id) = false) →
      (p.id == id) = true →
      (updateProduct store id body file now).product = some q →
      q.updatedAt = now ∧ q.createdAt = p.createdAt ∧ q.id = p.id) ∧
    (∀ body file rand q, (createProduct store body file now rand).product = some q →
      q.updatedAt = now ∧ q.createdAt = now) := by
  refine ⟨?_, ?_, ?_⟩
  · intro ps q p l1 l2 hdec hl1 hpid hq
    subst hdec
    have hup := updateFirst_of_decomposition l1 p l2 id
      (fun r => applyUpdate r (priceOnlyBody ps) none now) hl1 hpid
    simp [updateProduct, hup] at hq
    subst hq
    exact ⟨rfl, rfl, rfl, rfl, rfl, rfl, rfl, fun h => h⟩
  · intro body file q p l1 l2 hdec hl1 hpid hq
    subst hdec
    have hup := updateFirst_of_decomposition l1 p l2 id
      (fun r => applyUpdate r body file now) hl1 hpid
    simp [updateProduct, hup] at hq
    subst hq
    exact ⟨rfl, rfl, rfl⟩
  · intro body file rand q hq
    cases h : jsTruthy body.name with
    | false => simp [createProduct, h] at hq
    | true =>
      simp [createProduct, h] at hq
      subst hq
      exact ⟨rfl, rfl⟩

/-- C3 witness: updating the singleton store's record "prod-00" with a
price-only body keeps all other fields and stamps `updatedAt` with the
current time 10. -/
theorem update_price_only_frame_witness :
    ({ sampleProduct with updatedAt := 10 } : Product).name = sampleProduct.name ∧
    ({ sampleProduct with updatedAt := 10 } : Product).specifications = sampleProduct.specifications ∧
    ({ sampleProduct with updatedAt := 10 } : Product).tags = sampleProduct.tags ∧
    ({ sampleProduct with updatedAt := 10 } : Product).image = sampleProduct.image ∧
    ({ sampleProduct with updatedAt := 10 } : Product).createdAt = sampleProduct.createdAt ∧
    ({ sampleProduct with updatedAt := 10 } : Product).id = sampleProduct.id ∧
    ({ sampleProduct with updatedAt := 10 } : Product).updatedAt = 10 ∧
    (sampleProduct.updatedAt ≤ 10 → sampleProduct.updatedAt ≤ ({ sampleProduct with updatedAt := 10 } : Product).updatedAt) :=
  (update_price_only_frame [sampleProduct] "prod-00" 10).1 none
    { sampleProduct with updatedAt := 10 } sampleProduct [] [] rfl (by simp) (by decide) (by decide)

/-- C2 counterexample: the update request on record "prod-00" provides
`name` as the empty string, yet the stored name stays "Old" instead of
being overwritten with the provided (empty) value. -/
theorem update_provided_empty_name_counterexample :
    ((updateProduct [sampleProduct] "prod-00"
        { Body.empty with name := some "" } none 10).product.map Product.name = some "Old") ∧
    some "Old" ≠ some "" :=
  ⟨by decide, by decide⟩

/-- C2 (amended): for an update of an existing product (the first record
matching the id), every field provided with a JS-truthy (non-empty) value
overwrites the stored field — price via `parseFloat`, tags via
split-and-trim — while a field that is omitted or provided as a falsy
value (empty string) retains the prior stored value; a freshly uploaded
file replaces the image, otherwise the image is kept. -/
theorem update_truthy_overwrites_falsy_retains (store : List Product) (id : String)
    (body : Body) (file : Option String) (now : ℕ) :
    ∀ q p l1 l2, store = l1 ++ p :: l2 → (∀ r ∈ l1, (r.id == id) = false) →
    (p.id == id) = true →
    (updateProduct store id body file now).product = some q →
    ((∀ s, body.name = some s → s ≠ "" → q.name = s) ∧
      ((body.name = none ∨ body.name = some "") → q.name = p.name) ∧
      (∀ s, body.price = some s → s ≠ "" → q.price = parseFloat s) ∧
      ((body.price = none ∨ body.price = some "") → q.price = p.price) ∧
      (∀ s, body.category = some s → s ≠ "" → q.category = s ∧ q.specifications.category = s) ∧
      ((body.category = none ∨ body.category = some "") →
        q.category = p.category ∧ q.specifications.category = p.specifications.category) ∧
      (∀ s, body.mainCategory = some s → s ≠ "" → q.mainCategory = s) ∧
      ((body.mainCategory = none ∨ body.mainCategory = some "") → q.mainCategory = p.mainCategory) ∧
      (∀ s, body.subCategory = some s → s ≠ "" →
        q.subCategory = s ∧ q.specifications.subCategory = s) ∧
      ((body.subCategory = none ∨ body.subCategory = some "") →
        q.subCategory = p.subCategory ∧ q.specifications.subCategory = p.specifications.subCategory) ∧
      (∀ s, body.composition = some s → s ≠ "" → q.specifications.composition = s) ∧
      ((body.composition = none ∨ body.composition = some "") →
        q.specifications.composition = p.specifications.composition) ∧
      (∀ s, body.gsm = some s → s ≠ "" → q.specifications.gsm = s) ∧
      ((body.gsm = none ∨ body.gsm = some "") → q.specifications.gsm = p.specifications.gsm) ∧
      (∀ s, body.width = some s → s ≠ "" → q.specifications.width = s) ∧
      ((body.width = none ∨ body.width = some "") → q.specifications.width = p.specifications.width) ∧
      (∀ s, body.count = some s → s ≠ "" → q.specifications.count = s) ∧
      ((body.count = none ∨ body.count = some "") → q.specifications.count = p.specifications.count) ∧
      (∀ s, body.construction = some s → s ≠ "" → q.specifications.construction = s) ∧
      ((body.construction = none ∨ body.construction = some "") →
        q.specifications.construction = p.specifications.construction) ∧
      (∀ s, body.weave = some s → s ≠ "" → q.specifications.weave = s) ∧
      ((body.weave = none ∨ body.weave = some "") → q.specifications.weave = p.specifications.weave) ∧
      (∀ s, body.finish = some s → s ≠ "" → q.specifications.finish = s) ∧
      ((body.finish = none ∨ body.finish = some "") → q.specifications.finish = p.specifications.finish) ∧
      (∀ s, body.tags = TagsInput.str s → s ≠ "" → q.tags = (jsSplit s ',').map jsTrim) ∧
      (∀ l, body.tags = TagsInput.arr l → q.tags = l) ∧
      ((body.tags = TagsInput.undef ∨ body.tags = TagsInput.str "") → q.tags = p.tags) ∧
      (file = none → q.image = p.image) ∧
      (∀ f, file = some f → q.image = "/uploads/" ++ f)) := by
  intro q p l1 l2 hdec hl1 hpid hq
  subst hdec
  have hup := updateFirst_of_decomposition l1 p l2 id
    (fun r => applyUpdate r body file now) hl1 hpid
  simp [updateProduct, hup] at hq
  subst hq
  refine ⟨?_, ?_, ?_, ?_, ?_, ?_, ?_, ?_, ?_, ?_, ?_, ?_, ?_, ?_, ?_, ?_, ?_, ?_, ?_, ?_,
    ?_, ?_, ?_, ?_, ?_, ?_, ?_, ?_, ?_⟩
  · intro s hs hne; simp [applyUpdate, hs, jsOr, hne]
  · rintro (hs | hs) <;> simp [applyUpdate, hs, jsOr]
  · intro s hs hne; simp [applyUpdate, hs, jsTruthy, jsOr, hne]
  · rintro (hs | hs) <;> simp [applyUpdate, hs, jsTruthy]
  · intro s hs hne; constructor <;> simp [applyUpdate, hs, jsOr, hne]
  · rintro (hs | hs) <;> exact ⟨by simp [applyUpdate, hs, jsOr], by simp [applyUpdate, hs, jsOr]⟩
  · intro s hs hne; simp [applyUpdate, hs, jsOr, hne]
  · rintro (hs | hs) <;> simp [applyUpdate, hs, jsOr]
  · intro s hs hne; constructor <;> simp [applyUpdate, hs, jsOr, hne]
  · rintro (hs | hs) <;> exact ⟨by simp [applyUpdate, hs, jsOr], by simp [applyUpdate, hs, jsOr]⟩
  · intro s hs hne; simp [applyUpdate, hs, jsOr, hne]
  · rintro (hs | hs) <;> simp [applyUpdate, hs, jsOr]
  · intro s hs hne; simp [applyUpdate, hs, jsOr, hne]
  · rintro (hs | hs) <;> simp [applyUpdate, hs, jsOr]
  · intro s hs hne; simp [applyUpdate, hs, jsOr, hne]
  · rintro (hs | hs) <;> simp [applyUpdate, hs, jsOr]
  · intro s hs hne; simp [applyUpdate, hs, jsOr, hne]
  · rintro (hs | hs) <;> simp [applyUpdate, hs, jsOr]
  · intro s hs hne; simp [applyUpdate, hs, jsOr, hne]
  · rintro (hs | hs) <;> simp [applyUpdate, hs, jsOr]
  · intro s hs hne; simp [applyUpdate, hs, jsOr, hne]
  · rintro (hs | hs) <;> simp [applyUpdate, hs, jsOr]
  · intro s hs hne; simp [applyUpdate, hs, jsOr, hne]
  · rintro (hs | hs) <;> simp [applyUpdate, hs, jsOr]
  · intro s hs hne; simp [applyUpdate, hs, normalizeTags, hne]
  · intro l hl; simp [applyUpdate, hl, normalizeTags]
  · rintro (hs | hs) <;> simp [applyUpdate, hs, normalizeTags]
  · intro hf; simp [applyUpdate, hf]
  · intro f hf; simp [applyUpdate, hf]

/-- C2 witness: updating "prod-00" with the non-empty name "New" really
overwrites the stored name. -/
theorem update_truthy_overwrites_witness :
    ({ sampleProduct with name := "New", updatedAt := 10 } : Product).name = "New" :=
  (update_truthy_overwrites_falsy_retains [sampleProduct] "prod-00"
      { Body.empty with name := some "New" } none 10
      { sampleProduct with name := "New", updatedAt := 10 } sampleProduct [] []
      rfl (by simp) (by decide) (by decide)).1 "New" rfl (by decide)

/-- A string that begins with a URL scheme: one or more letters followed
by `://`. -/
def hasUrlScheme (s : String) : Prop :=
  ∃ sch rest, sch ≠ [] ∧ (∀ c ∈ sch, c.isAlpha = true) ∧
    s.data = sch ++ ':' :: '/' :: '/' :: rest

theorem jsStartsWith_head {s : String} {c : Char} {cs : List Char}
    (hpre : ∃ pre : String, pre.data = c :: cs ∧ jsStartsWith s pre = true) :
    ∃ t, s.data = c :: t := by
  obtain ⟨pre, hd, h⟩ := hpre
  unfold jsStartsWith at h
  rw [hd] at h
  cases hs : s.data with
  | nil => rw [hs] at h; cases h
  | cons b bs =>
    rw [hs] at h
    have hcb : (c == b) = true := by
      cases hcb : (c == b)
      · rw [List.isPrefixOf, hcb] at h; simp at h
      · rfl
    exact ⟨bs, by rw [eq_of_beq hcb]⟩

theorem jsStartsWith_false_of_head_ne {s pre : String} {c b : Char} {t t2 : List Char}
    (hs : s.data = c :: t) (hpre : pre.data = b :: t2) (hne : (b == c) = false) :
    jsStartsWith s pre = false := by
  unfold jsStartsWith
  rw [hs, hpre, List.isPrefixOf, hne]
  rfl

theorem String.ne_empty_of_data_cons {s : String} {c : Char} {t : List Char}
    (hs : s.data = c :: t) : (s == "") = false := by
  cases hb : (s == "")
  · rfl
  · have : s = "" := eq_of_beq hb
    rw [this] at hs
    cases hs

/-- C4: the image reference resolver maps a storage-relative reference
(one starting with "/uploads/") to the configured public base URL
(`BACKEND_URL || http://localhost:<port>`) concatenated with the
reference, is the identity on any reference that starts with a URL scheme,
and maps the empty reference to the configured placeholder URL. -/
theorem getFullImageUrl_resolution (backendUrl : Option String) (port : ℕ)
    (imagePath : String) :
    (jsStartsWith imagePath "/uploads/" = true →
      getFullImageUrl backendUrl port imagePath =
        jsOr backendUrl ("http://localhost:" ++ toString port) ++ imagePath) ∧
    (hasUrlScheme imagePath → getFullImageUrl backendUrl port imagePath = imagePath) ∧
    getFullImageUrl backendUrl port "" =
      "https://via.placeholder.com/300x300/4A5568/FFFFFF?text=No+Image" := by
  refine ⟨?_, ?_, rfl⟩
  · intro h
    obtain ⟨t, ht⟩ := jsStartsWith_head ⟨"/uploads/", rfl, h⟩
    have hemp := String.ne_empty_of_data_cons ht
    have hhttp : jsStartsWith imagePath "http" = false :=
      jsStartsWith_false_of_head_ne ht rfl (by decide)
    simp [getFullImageUrl, hemp, hhttp, h]
  · rintro ⟨sch, rest, hne, halpha, hdata⟩
    obtain ⟨c, sch', hc⟩ := List.exists_cons_of_ne_nil hne
    have hcs : imagePath.data = c :: (sch' ++ ':' :: '/' :: '/' :: rest) := by
      rw [hdata, hc]; rfl
    have hemp := String.ne_empty_of_data_cons hcs
    have hca : c.isAlpha = true := halpha c (by rw [hc]; exact List.mem_cons_self c sch')
    have hslash : ('/' == c) = false := by
      cases hsc : ('/' == c)
      · rfl
      · rw [← eq_of_beq hsc] at hca
        cases hca
    have hupl : jsStartsWith imagePath "/uploads/" = false :=
      jsStartsWith_false_of_head_ne hcs rfl hslash
    cases hhttp : jsStartsWith imagePath "http" with
    | false => simp [getFullImageUrl, hemp, hhttp, hupl]
    | true => simp [getFullImageUrl, hemp, hhttp]

/-- C4 witness: a freshly stored relative reference resolves to the base
URL (here the localhost fallback for port 5000) followed by the reference,
an absolute URL resolves to itself, and the empty reference resolves to
the placeholder. -/
theorem getFullImageUrl_resolution_witness :
    getFullImageUrl none 5000 "/uploads/a.png" = "http://localhost:5000/uploads/a.png" ∧
    getFullImageUrl none 5000 "https://cdn.example.com/x.png" = "https://cdn.example.com/x.png" :=
  ⟨by
    have h := (getFullImageUrl_resolution none 5000 "/uploads/a.png").1 (by decide)
    rw [h]
    decide,
  (getFullImageUrl_resolution none 5000 "https://cdn.example.com/x.png").2.1
    ⟨['h', 't', 't', 'p', 's'], "cdn.example.com/x.png".data, by decide, by decide, by decide⟩⟩

theorem parseFloat_neg_five : parseFloat "-5" = JsNumber.num (-5) := by
  show decValue (parseDec "-5") = _
  rw [show parseDec "-5" = ParsedDec.dec true ['5'] [] from by decide]
  show JsNumber.num _ = _
  rw [show digitsToNat ['5'] = 5 from by decide, show digitsToNat ([] : List Char) = 0 from by decide]
  norm_num

theorem parseFloat_twelve_point_five : parseFloat "12.5" = JsNumber.num (25 / 2) := by
  show decValue (parseDec "12.5") = _
  rw [show parseDec "12.5" = ParsedDec.dec false ['1', '2'] ['5'] from by decide]
  show JsNumber.num _ = _
  rw [show digitsToNat ['1', '2'] = 12 from by decide, show digitsToNat ['5'] = 5 from by decide]
  norm_num

/-- A create body with name "X" and no other field. -/
def bodyX : Body := { Body.empty with name := some "X" }

/-- A create body with name "Y" and no other field. -/
def bodyY : Body := { Body.empty with name := some "Y" }

/-- A create body with a negative price string. -/
def negPriceBody : Body := { Body.empty with name := some "X", price := some "-5" }

/-- The create body of the spec scenario `{name:"Linen", price:"12.5",
tags:"eco, natural"}`. -/
def linenBody : Body :=
  { Body.empty with
    name := some "Linen"
    price := some "12.5"
    tags := TagsInput.str "eco, natural" }

/-- The record created from `bodyX` at time 0 with random draw 0. -/
def createdX : Product :=
  { id := "prod-00"
    name := "X"
    price := JsNumber.num 0
    category := ""
    mainCategory := ""
    subCategory := ""
    image := ""
    specifications := ⟨"", "", "", "", "", "", "", "", ""⟩
    tags := []
    createdAt := 0
    updatedAt := 0
    inStock := true
  }

/-- C6 counterexample: a Create request with price "-5" stores the
negative number -5, so the stored price is not a non-negative number and
the unparseable-defaults-to-0 rule is the only defaulting the code does. -/
theorem create_negative_price_counterexample :
    (createProduct [] negPriceBody none 0 0).product.map Product.price =
      some (JsNumber.num (-5)) ∧
    (-5 : ℚ) < 0 := by
  constructor
  · have h : (createProduct [] negPriceBody none 0 0).product.map Product.price =
        some (parseFloat "-5") := rfl
    rw [h, parseFloat_neg_five]
  · norm_num

/-- C6 (amended): the stored `price` of a created product is 0 when the
price field is absent or empty, and otherwise `parseFloat` of the provided
string — which may be negative or NaN for adversarial inputs; in
particular creating with price "12.5" and tags "eco, natural" stores the
numeric value 12.5 and the tag sequence ["eco", "natural"]. -/
theorem create_price_parsing (store : List Product) (body : Body)
    (file : Option String) (now rand : ℕ) :
    ((body.price = none ∨ body.price = some "") →
      ∀ q, (createProduct store body file now rand).product = some q →
        q.price = JsNumber.num 0) ∧
    (∀ s, body.price = some s → s ≠ "" →
      ∀ q, (createProduct store body file now rand).product = some q →
        q.price = parseFloat s) ∧
    ((createProduct [] linenBody none now rand).product.map Product.price =
        some (JsNumber.num (25 / 2)) ∧
      (createProduct [] linenBody none now rand).product.map Product.tags =
        some ["eco", "natural"]) := by
  refine ⟨?_, ?_, ?_, ?_⟩
  · intro hp q hq
    cases h : jsTruthy body.name with
    | false => simp [createProduct, h] at hq
    | true =>
      simp [createProduct, h] at hq
      subst hq
      rcases hp with hp | hp <;> simp [hp, jsTruthy]
  · intro s hs hne q hq
    cases h : jsTruthy body.name with
    | false => simp [createProduct, h] at hq
    | true =>
      simp [createProduct, h] at hq
      subst hq
      simp [hs, jsTruthy, jsOr, hne]
  · have h : (createProduct [] linenBody none now rand).product.map Product.price =
        some (parseFloat "12.5") := rfl
    rw [h, parseFloat_twelve_point_five]
  · have h : (createProduct [] linenBody none now rand).product.map Product.tags =
        some (normalizeTags (TagsInput.str "eco, natural") []) := rfl
    rw [h]
    decide

/-- C6 witness: creating from a body with no price field stores price 0. -/
theorem create_price_parsing_witness : createdX.price = JsNumber.num 0 :=
  (create_price_parsing [] bodyX none 0 0).1 (Or.inl rfl) createdX (by decide)

/-- C7 counterexample: two Create calls that see the same clock reading
and the same rounded random draw derive the same id "prod-57", so the
second created id is not distinct from the first and id uniqueness fails
for this sequence of Create calls. -/
theorem duplicate_id_counterexample :
    (createProduct (createProduct [] bodyX none 5 7).store bodyY none 5 7).store.map
        Product.id = ["prod-57", "prod-57"] ∧
    ¬ List.Pairwise (fun a b => a ≠ b)
        ((createProduct (createProduct [] bodyX none 5 7).store bodyY none 5 7).store.map
          Product.id) := by
  constructor
  · decide
  · decide

theorem updateFirst_fst_map_id (l : List Product) (id : String) (f : Product → Product)
    (hf : ∀ p, (f p).id = p.id) :
    (updateFirst l id f).1.map Product.id = l.map Product.id := by
  induction l with
  | nil => rfl
  | cons p rest ih =>
    by_cases hp : (p.id == id) = true
    · simp [updateFirst, hp, hf]
    · have hp' : (p.id == id) = false := by simpa using hp
      simp [updateFirst, hp', ih]

/-- C7 (amended): a created record's id is `generateId` of the clock and
random draw, every record already stored is kept untouched by a create,
updates never change any stored id, and id uniqueness is preserved by a
create provided the generated id differs from every stored id — the code
itself never checks the store, so uniqueness rests on that freshness
assumption (violated when clock and random draw repeat). -/
theorem create_id_fresh_uniqueness (store : List Product) (body : Body)
    (file : Option String) (now rand : ℕ) :
    (∀ q, (createProduct store body file now rand).product = some q →
      q.id = generateId now rand) ∧
    (∀ p ∈ store, p ∈ (createProduct store body file now rand).store) ∧
    (List.Pairwise (fun a b => a.id ≠ b.id) store →
      generateId now rand ∉ store.map Product.id →
      List.Pairwise (fun a b => a.id ≠ b.id)
        (createProduct store body file now rand).store) ∧
    (∀ id2 body2 file2 now2,
      (updateProduct store id2 body2 file2 now2).store.map Product.id =
        store.map Product.id) := by
  refine ⟨?_, ?_, ?_, ?_⟩
  · intro q hq
    cases h : jsTruthy body.name with
    | false => simp [createProduct, h] at hq
    | true =>
      simp [createProduct, h] at hq
      subst hq
      rfl
  · intro p hp
    cases h : jsTruthy body.name with
    | false => simpa [createProduct, h] using hp
    | true =>
      simp [createProduct, h]
      exact Or.inl hp
  · intro hpair hfresh
    cases h : jsTruthy body.name with
    | false => simpa [createProduct, h] using hpair
    | true =>
      simp [createProduct, h]
      rw [List.pairwise_append]
      refine ⟨hpair, by simp, ?_⟩
      intro a ha b hb
      have hb' : b.id = generateId now rand := by
        rcases List.mem_singleton.mp hb with rfl
        rfl
      rw [hb']
      intro hcontra
      exact hfresh (by rw [← hcontra]; exact List.mem_map_of_mem Product.id ha)
  · intro id2 body2 file2 now2
    cases hr : (updateFirst store id2 (fun r => applyUpdate r body2 file2 now2)).2 with
    | none => simp [updateProduct, hr]
    | some q =>
      simp [updateProduct, hr]
      exact updateFirst_fst_map_id store id2 _ fun p => rfl

/-- C7 witness: creating into a store whose only id is "prod-00", with a
fresh generated id "prod-57", keeps the store's ids pairwise distinct. -/
theorem create_id_fresh_uniqueness_witness :
    List.Pairwise (fun a b => a.id ≠ b.id)
      (createProduct [sampleProduct] bodyX none 5 7).store :=
  (create_id_fresh_uniqueness [sampleProduct] bodyX none 5 7).2.2.1 (by decide) (by decide)

/-- C8 counterexample: the claim's split-and-trim description fails on the
empty input string — the code's truthiness guard maps "" to the default []
rather than to the split-and-trim result [""]. -/
theorem normalize_empty_string_counterexample :
    normalizeTags (TagsInput.str "") [] = [] ∧
    (jsSplit "" ',').map jsTrim = [""] ∧
    ([] : List String) ≠ [""] := by
  refine ⟨rfl, by decide, by decide⟩

/-- C8 (amended): for every non-empty comma-delimited input string,
normalization splits on commas and trims each element ("a, b ,c" yields
["a", "b", "c"]), the empty string normalizes to the default [], and
normalizing an already-normalized sequence returns it unchanged, so
normalizing twice equals normalizing once. -/
theorem normalizeTags_split_and_idempotent :
    (∀ s, s ≠ "" → normalizeTags (TagsInput.str s) [] = (jsSplit s ',').map jsTrim) ∧
    normalizeTags (TagsInput.str "a, b ,c") [] = ["a", "b", "c"] ∧
    (∀ t dflt, normalizeTags (TagsInput.arr (normalizeTags t dflt)) [] =
      normalizeTags t dflt) ∧
    normalizeTags (TagsInput.str "") [] = [] := by
  refine ⟨?_, by decide, fun t dflt => rfl, rfl⟩
  intro s h
  simp [normalizeTags, h]

/-- C8 witness: the split-and-trim description instantiated at the
non-empty string "a, b ,c". -/
theorem normalizeTags_split_witness :
    normalizeTags (TagsInput.str "a, b ,c") [] = (jsSplit "a, b ,c" ',').map jsTrim :=
  normalizeTags_split_and_idempotent.1 "a, b ,c" (by decide)

/-- C9: in the revision `src/unnamed/part_000`, a Create request lacking
any of `name`, `price` or `mainCategory` is rejected with status 400 and
appends nothing — even when `name` is present and non-empty. -/
theorem v0_create_requires_name_price_mainCategory (store : List V0.Product)
    (body : V0.Body) (file : Option String) (now : ℕ) (rand : String) :
    (body.name = none ∨ body.price = none ∨ body.mainCategory = none) →
    (V0.createProduct store body file now rand).status = 400 ∧
    (V0.createProduct store body file now rand).store = store := by
  intro h
  have hcond : (!(jsTruthy body.name) || !(jsTruthy body.price) ||
      !(jsTruthy body.mainCategory)) = true := by
    rcases h with h | h | h <;> simp [h, jsTruthy]
  exact ⟨by simp [V0.createProduct, hcond], by simp [V0.createProduct, hcond]⟩

/-- C9 witness: the well-named create body `{name := "Good",
mainCategory := "MC"}` without a price is rejected by the old revision. -/
theorem v0_create_requires_witness :
    (V0.createProduct [] { V0.Body.empty with
        name := some "Good"
        mainCategory := some "MC" } none 0 "abc").status = 400 ∧
    (V0.createProduct [] { V0.Body.empty with
        name := some "Good"
        mainCategory := some "MC" } none 0 "abc").store = [] :=
  v0_create_requires_name_price_mainCategory []
    { V0.Body.empty with name := some "Good", mainCategory := some "MC" }
    none 0 "abc" (Or.inr (Or.inl rfl))

/-- A request against the store: one of the three mutating handlers. -/
inductive Op where
  | create (body : Body) (file : Option String) (now rand : ℕ) : Op
  | update (id : String) (body : Body) (file : Option String) (now : ℕ) : Op
  | del (id : String) : Op

/-- The store after one handler call. -/
def applyOp (store : List Product) : Op → List Product
  | Op.create body file now rand => (createProduct store body file now rand).store
  | Op.update id body file now => (updateProduct store id body file now).store
  | Op.del id => (deleteProduct store id).store

/-- The store reached from the initial empty `products` list by a sequence
of handler calls. -/
def runOps (ops : List Op) : List Product :=
  ops.foldl applyOp []

theorem mem_updateFirst_fst {l : List Product} {id : String} {f : Product → Product}
    {q : Product} (hq : q ∈ (updateFirst l id f).1) :
    q ∈ l ∨ ∃ p, p ∈ l ∧ q = f p := by
  induction l with
  | nil => simp [updateFirst] at hq
  | cons p rest ih =>
    by_cases hp : (p.id == id) = true
    · simp [updateFirst, hp] at hq
      rcases hq with hq | hq
      · exact Or.inr ⟨p, List.mem_cons_self p rest, hq⟩
      · exact Or.inl (List.mem_cons_of_mem p hq)
    · have hp' : (p.id == id) = false := by simpa using hp
      simp [updateFirst, hp'] at hq
      rcases hq with hq | hq
      · exact Or.inl (by rw [hq]; exact List.mem_cons_self p rest)
      · rcases ih hq with h | ⟨r, hr, hqr⟩
        · exact Or.inl (List.mem_cons_of_mem p h)
        · exact Or.inr ⟨r, List.mem_cons_of_mem p hr, hqr⟩

theorem mem_removeFirst_fst {l : List Product} {id : String} {q : Product}
    (hq : q ∈ (removeFirst l id).1) : q ∈ l := by
  induction l with
  | nil => simp [removeFirst] at hq
  | cons p rest ih =>
    by_cases hp : (p.id == id) = true
    · simp [removeFirst, hp] at hq
      exact List.mem_cons_of_mem p hq
    · have hp' : (p.id == id) = false := by simpa using hp
      simp [removeFirst, hp'] at hq
      rcases hq with hq | hq
      · rw [hq]; exact List.mem_cons_self p rest
      · exact List.mem_cons_of_mem p (ih hq)

theorem inStock_preserved_by_step (store : List Product) (op : Op)
    (h : ∀ p ∈ store, p.inStock = true) :
    ∀ p ∈ applyOp store op, p.inStock = true := by
  cases op with
  | create body file now rand =>
    intro p hp
    cases hn : jsTruthy body.name with
    | false => exact h p (by simpa [applyOp, createProduct, hn] using hp)
    | true =>
      simp [applyOp, createProduct, hn] at hp
      rcases hp with hp | hp
      · exact h p hp
      · rw [hp]
  | update id body file now =>
    intro p hp
    cases hr : (updateFirst store id (fun r => applyUpdate r body file now)).2 with
    | none => exact h p (by simpa [applyOp, updateProduct, hr] using hp)
    | some q =>
      have hp' : p ∈ (updateFirst store id (fun r => applyUpdate r body file now)).1 := by
        simpa [applyOp, updateProduct, hr] using hp
      rcases mem_updateFirst_fst hp' with hmem | ⟨r, hrmem, hpr⟩
      · exact h p hmem
      · rw [hpr]
        show (applyUpdate r body file now).inStock = true
        show r.inStock = true
        exact h r hrmem
  | del id =>
    intro p hp
    cases hr : (removeFirst store id).2 with
    | none => exact h p (by simpa [applyOp, deleteProduct, hr] using hp)
    | some q =>
      have hp' : p ∈ (removeFirst store id).1 := by
        simpa [applyOp, deleteProduct, hr] using hp
      exact h p (mem_removeFirst_fst hp')

/-- C10: in every store reachable from the initial empty collection by any
sequence of create, update and delete handler calls, every stored product
has `inStock = true`: create sets it unconditionally and no other
operation ever changes it. -/
theorem inStock_invariant (ops : List Op) : ∀ p ∈ runOps ops, p.inStock = true := by
  suffices hgen : ∀ (l : List Op) (store : List Product),
      (∀ p ∈ store, p.inStock = true) → ∀ p ∈ List.foldl applyOp store l, p.inStock = true by
    exact hgen ops [] (by simp)
  intro l
  induction l with
  | nil => intro store h; simpa using h
  | cons op rest ih =>
    intro store h
    exact ih (applyOp store op) (inStock_preserved_by_step store op h)

/-- C10 witness: the record created by a single create call is in stock. -/
theorem inStock_invariant_witness : createdX.inStock = true :=
  inStock_invariant [Op.create bodyX none 0 0] createdX (by decide)
